import Mathlib

/-!
Verification of the unordered-completion multiplexer demo (src/src/main.rs).

The program fans out a batch of asynchronous operations through a
`FuturesUnordered` collection and drains their results in completion order
with `while let Some(r) = futures.next().await { … }`.  The multiplexer
itself lives in the external `futures` crate, so its behaviour is modelled
from the specification; the operations pushed into it and the caller-side
drain loops are embedded from the source.

An asynchronous operation is embedded as a pair `(completion latency, terminal
result)`: its only observable behaviour is that it completes once, after its
sleep, with its result.
-/

namespace AsyncStdDemo

/-- Modelled from the spec: the missing `FuturesUnordered` container of the
`futures` crate.  A multiplexer owns the batch of in-flight Operations, each
embedded as a `(completion latency, terminal result)` pair; completion order
is a function of latency, not submission order. -/
abbrev Multiplexer (α : Type) : Type := List (Nat × α)

/-- Modelled from the spec: `FuturesUnordered::new()`, an empty multiplexer
with zero Operations. -/
def Multiplexer.new {α : Type} : Multiplexer α := []

/-- Modelled from the spec: `push` adds an Operation to the batch. -/
def Multiplexer.push {α : Type} (m : Multiplexer α) (op : Nat × α) : Multiplexer α :=
  m ++ [op]

/-- Modelled from the spec: the scheduling step underlying `next()`.  It picks
the pending Operation that completes earliest (least latency, ties resolved to
the earlier-pushed one) and returns it together with the rest of the batch;
`none` when the batch is empty. -/
def selectEarliest {α : Type} : List (Nat × α) → Option ((Nat × α) × List (Nat × α))
  | [] => none
  | x :: xs =>
    match selectEarliest xs with
    | none => some (x, [])
    | some (y, ys) => if x.1 ≤ y.1 then some (x, xs) else some (y, x :: ys)

/-- Modelled from the spec: `next()` suspends until some Operation in the
batch completes, removes it and returns its terminal result with the remaining
batch; `none` iff the batch is empty with nothing in flight. -/
def Multiplexer.next {α : Type} (m : Multiplexer α) : Option (α × Multiplexer α) :=
  match selectEarliest m with
  | none => none
  | some (op, rest) => some (op.2, rest)

/-- Draining loop with explicit fuel: `while let Some(r) = futures.next().await`
iterated at most `fuel` times.  `fuel := m.length` always suffices because each
`next` removes one Operation. -/
def Multiplexer.drainAux {α : Type} : Nat → Multiplexer α → List α
  | 0, _ => []
  | Nat.succ fuel, m =>
    match Multiplexer.next m with
    | none => []
    | some (a, m2) => a :: Multiplexer.drainAux fuel m2

/-- Embedded from src/src/main.rs: the canonical drain loop
`while let Some(r) = futures.next().await { … }`, returning the results in the
order `next()` yields them. -/
def Multiplexer.drain {α : Type} (m : Multiplexer α) : List α :=
  Multiplexer.drainAux m.length m

theorem selectEarliest_eq_none {α : Type} (l : List (Nat × α)) :
    selectEarliest l = none ↔ l = [] := by
  cases l with
  | nil => simp [selectEarliest]
  | cons x xs =>
    simp only [selectEarliest]
    cases h : selectEarliest xs with
    | none => simp
    | some p =>
      obtain ⟨y, ys⟩ := p
      by_cases hle : x.1 ≤ y.1 <;> simp [hle]

theorem selectEarliest_length {α : Type} :
    ∀ (l : List (Nat × α)) p rest, selectEarliest l = some (p, rest) →
      rest.length + 1 = l.length := by
  intro l
  induction l with
  | nil => intro p rest h; simp [selectEarliest] at h
  | cons x xs ih =>
    intro p rest h
    simp only [selectEarliest] at h
    cases hxs : selectEarliest xs with
    | none =>
      rw [hxs] at h
      have hnil : xs = [] := (selectEarliest_eq_none xs).mp hxs
      simp only [Option.some.injEq, Prod.mk.injEq] at h
      subst hnil
      simp [← h.2]
    | some q =>
      obtain ⟨y, ys⟩ := q
      rw [hxs] at h
      by_cases hle : x.1 ≤ y.1
      · simp only [hle, if_true, Option.some.injEq, Prod.mk.injEq] at h
        simp [← h.2]
      · simp only [hle, if_false, Option.some.injEq, Prod.mk.injEq] at h
        have := ih y ys hxs
        rw [← h.2]
        simp only [List.length_cons]
        omega

theorem selectEarliest_perm {α : Type} :
    ∀ (l : List (Nat × α)) p rest, selectEarliest l = some (p, rest) →
      l.Perm (p :: rest) := by
  intro l
  induction l with
  | nil => intro p rest h; simp [selectEarliest] at h
  | cons x xs ih =>
    intro p rest h
    simp only [selectEarliest] at h
    cases hxs : selectEarliest xs with
    | none =>
      rw [hxs] at h
      have hnil : xs = [] := (selectEarliest_eq_none xs).mp hxs
      simp only [Option.some.injEq, Prod.mk.injEq] at h
      subst hnil
      rw [← h.1, ← h.2]
    | some q =>
      obtain ⟨y, ys⟩ := q
      rw [hxs] at h
      by_cases hle : x.1 ≤ y.1
      · simp only [hle, if_true, Option.some.injEq, Prod.mk.injEq] at h
        rw [← h.1, ← h.2]
      · simp only [hle, if_false, Option.some.injEq, Prod.mk.injEq] at h
        have hperm : xs.Perm (y :: ys) := ih y ys hxs
        rw [← h.1, ← h.2]
        exact (hperm.cons x).trans (List.Perm.swap y x ys)

theorem next_eq_none {α : Type} (m : Multiplexer α) :
    Multiplexer.next m = none ↔ m = [] := by
  unfold Multiplexer.next
  cases h : selectEarliest m with
  | none => simp [(selectEarliest_eq_none m).mp h]
  | some p =>
    obtain ⟨op, rest⟩ := p
    constructor
    · intro hc; simp at hc
    · intro hm
      subst hm
      simp [selectEarliest] at h

theorem next_some_facts {α : Type} (m : Multiplexer α) (a : α) (m2 : Multiplexer α)
    (h : Multiplexer.next m = some (a, m2)) :
    (m.map Prod.snd).Perm (a :: m2.map Prod.snd) ∧ m2.length + 1 = m.length := by
  unfold Multiplexer.next at h
  cases hs : selectEarliest m with
  | none => rw [hs] at h; simp at h
  | some p =>
    obtain ⟨op, rest⟩ := p
    rw [hs] at h
    simp only [Option.some.injEq, Prod.mk.injEq] at h
    obtain ⟨ha, hrest⟩ := h
    constructor
    · have hp := (selectEarliest_perm m op rest hs).map Prod.snd
      rw [← ha, ← hrest]
      simpa using hp
    · rw [← hrest]
      exact selectEarliest_length m op rest hs

theorem drainAux_perm {α : Type} :
    ∀ (fuel : Nat) (m : Multiplexer α), m.length ≤ fuel →
      (Multiplexer.drainAux fuel m).Perm (m.map Prod.snd) := by
  intro fuel
  induction fuel with
  | zero =>
    intro m hm
    have : m = [] := List.length_eq_zero.mp (Nat.le_zero.mp hm)
    subst this
    simp [Multiplexer.drainAux]
  | succ fuel ih =>
    intro m hm
    simp only [Multiplexer.drainAux]
    cases hn : Multiplexer.next m with
    | none =>
      have : m = [] := (next_eq_none m).mp hn
      subst this
      simp
    | some p =>
      obtain ⟨a, m2⟩ := p
      obtain ⟨hperm, hlen⟩ := next_some_facts m a m2 hn
      have hm2 : m2.length ≤ fuel := by omega
      exact ((ih m2 hm2).cons a).trans hperm.symm

theorem drain_perm {α : Type} (m : Multiplexer α) :
    (Multiplexer.drain m).Perm (m.map Prod.snd) :=
  drainAux_perm m.length m (Nat.le_refl _)

theorem drain_length {α : Type} (m : Multiplexer α) :
    (Multiplexer.drain m).length = m.length := by
  have := (drain_perm m).length_eq
  simpa using this

/-- Embedded from src/src/main.rs `sleep_and_print`: sleeps for `sleep_millis`
and prints; its terminal result is the unit value.  The sleep becomes the
Operation's completion latency, the print is unobservable to the multiplexer. -/
def sleep_and_print (_future_number : Nat) (sleep_millis : Nat) : Nat × Unit :=
  (sleep_millis, ())

/-- Embedded from src/src/main.rs `sleep_and_print_and_return_value`: sleeps
for `sleep_millis`, prints, and completes with `future_number * 10`. -/
def sleep_and_print_and_return_value (future_number : Nat) (sleep_millis : Nat) :
    Nat × Nat :=
  (sleep_millis, future_number * 10)

/-- Embedded from src/src/main.rs `sleep_and_print_and_return_error`: sleeps
for `sleep_millis`, prints, then completes with `Ok(future_number * 10)` when
`future_number` is even and with an error message naming the future number
when it is odd. -/
def sleep_and_print_and_return_error (future_number : Nat) (sleep_millis : Nat) :
    Nat × Except String Nat :=
  (sleep_millis,
    if future_number % 2 == 0 then
      Except.ok (future_number * 10)
    else
      Except.error ("It didn\'t work for future " ++ toString future_number))

/-- Embedded from src/src/main.rs `demo_waiting_for_multiple_random_sleeps`:
the loop `for future_number in 0..10 { futures.push(sleep_and_print(...)) }`,
with the random sleeps abstracted as a latency assignment `millis`. -/
def unit_batch (millis : Nat → Nat) : Multiplexer Unit :=
  (List.range 10).foldl
    (fun futures future_number =>
      Multiplexer.push futures (sleep_and_print future_number (millis future_number)))
    Multiplexer.new

/-- Embedded from src/src/main.rs
`demo_waiting_for_multiple_random_sleeps_with_return_values`: the push loop
building the batch of ten `sleep_and_print_and_return_value` Operations. -/
def value_batch (millis : Nat → Nat) : Multiplexer Nat :=
  (List.range 10).foldl
    (fun futures future_number =>
      Multiplexer.push futures
        (sleep_and_print_and_return_value future_number (millis future_number)))
    Multiplexer.new

/-- Embedded from src/src/main.rs
`demo_waiting_for_multiple_random_sleeps_with_return_values`: the drain loop
`while let Some(v) = futures.next().await { sum += v }`, returning the final
value of `sum`. -/
def demo_waiting_for_multiple_random_sleeps_with_return_values
    (millis : Nat → Nat) : Nat :=
  (Multiplexer.drain (value_batch millis)).foldl (fun sum v => sum + v) 0

/-- Embedded from src/src/main.rs
`demo_waiting_for_multiple_random_sleeps_with_errors`: the push loop building
the batch of ten `sleep_and_print_and_return_error` Operations. -/
def error_batch (millis : Nat → Nat) : Multiplexer (Except String Nat) :=
  (List.range 10).foldl
    (fun futures future_number =>
      Multiplexer.push futures
        (sleep_and_print_and_return_error future_number (millis future_number)))
    Multiplexer.new

/-- Embedded from src/src/main.rs, the body of the drain loop of
`demo_waiting_for_multiple_random_sleeps_with_errors`: `Ok(value)` adds to the
sum accumulator, `Err(e)` leaves it unchanged and prints the message (the
second component logs the printed messages). -/
def errorLoopStep (acc : Nat × List String) (r : Except String Nat) :
    Nat × List String :=
  match r with
  | Except.ok value => (acc.1 + value, acc.2)
  | Except.error e => (acc.1, acc.2 ++ [e])

/-- Contribution of one drained result to the sum accumulator: the value of a
success, nothing for a failure. -/
def okValueOrZero (r : Except String Nat) : Nat :=
  match r with
  | Except.ok value => value
  | Except.error _ => 0

/-- Message printed for one drained result: the error message of a failure,
nothing for a success. -/
def errMessageOf (r : Except String Nat) : Option String :=
  match r with
  | Except.ok _ => none
  | Except.error e => some e

/-- Embedded from src/src/main.rs
`demo_waiting_for_multiple_random_sleeps_with_errors`: drains the batch,
returning the final sum accumulator and the error messages printed, in order. -/
def demo_waiting_for_multiple_random_sleeps_with_errors
    (millis : Nat → Nat) : Nat × List String :=
  (Multiplexer.drain (error_batch millis)).foldl errorLoopStep (0, [])

/-- Modelled from the spec: the failure taxonomy of the fetch collaborator — a
failure describes what went wrong: a connection error, a non-success HTTP
status, or a decoding error.  The source uses the opaque `surf::Exception`. -/
inductive FetchError : Type where
  | connection (cause : String)
  | status (code : Nat)
  | decode (cause : String)

/-- Embedded from src/src/main.rs `download_url`: `surf::get(url).await?`
followed by `result.body_string().await?`.  The HTTP collaborator is passed in
as the outcome of the GET (`get_result`) and of the body read (`body_string`);
the two `?` operators become the two matches. -/
def download_url {ρ : Type} (get_result : Except FetchError ρ)
    (body_string : ρ → Except FetchError String) : Except FetchError String :=
  match get_result with
  | Except.error e => Except.error e
  | Except.ok result =>
    match body_string result with
    | Except.error e => Except.error e
    | Except.ok body => Except.ok body

theorem foldl_push {α β : Type} (f : β → Nat × α) :
    ∀ (l : List β) (m : Multiplexer α),
      l.foldl (fun futures i => Multiplexer.push futures (f i)) m = m ++ l.map f := by
  intro l
  induction l with
  | nil => intro m; simp
  | cons x xs ih =>
    intro m
    simp only [List.foldl_cons, List.map_cons]
    rw [ih]
    simp [Multiplexer.push]

theorem foldl_add_eq_sum : ∀ (l : List Nat) (s : Nat),
    l.foldl (fun sum v => sum + v) s = s + l.sum := by
  intro l
  induction l with
  | nil => intro s; simp
  | cons x xs ih =>
    intro s
    simp only [List.foldl_cons, List.sum_cons]
    rw [ih]
    omega

theorem foldl_errorLoopStep : ∀ (l : List (Except String Nat)) (s : Nat) (log : List String),
    l.foldl errorLoopStep (s, log) =
      (s + (l.map okValueOrZero).sum, log ++ l.filterMap errMessageOf) := by
  intro l
  induction l with
  | nil => intro s log; simp
  | cons x xs ih =>
    intro s log
    cases x with
    | ok v =>
      simp only [List.foldl_cons, errorLoopStep, List.map_cons, List.sum_cons,
        List.filterMap_cons, okValueOrZero, errMessageOf]
      rw [ih]
      simp [Nat.add_assoc]
    | error e =>
      simp only [List.foldl_cons, errorLoopStep, List.map_cons, List.sum_cons,
        List.filterMap_cons, okValueOrZero, errMessageOf]
      rw [ih]
      simp

theorem drain_value_batch_perm (millis : Nat → Nat) :
    (Multiplexer.drain (value_batch millis)).Perm
      [0, 10, 20, 30, 40, 50, 60, 70, 80, 90] := by
  have hmap : (value_batch millis).map Prod.snd =
      [0, 10, 20, 30, 40, 50, 60, 70, 80, 90] := rfl
  have := drain_perm (value_batch millis)
  rwa [hmap] at this

theorem drain_error_batch_perm (millis : Nat → Nat) :
    (Multiplexer.drain (error_batch millis)).Perm
      [Except.ok 0, Except.error "It didn\'t work for future 1", Except.ok 20,
       Except.error "It didn\'t work for future 3", Except.ok 40,
       Except.error "It didn\'t work for future 5", Except.ok 60,
       Except.error "It didn\'t work for future 7", Except.ok 80,
       Except.error "It didn\'t work for future 9"] := by
  have hmap : (error_batch millis).map Prod.snd =
      [Except.ok 0, Except.error "It didn\'t work for future 1", Except.ok 20,
       Except.error "It didn\'t work for future 3", Except.ok 40,
       Except.error "It didn\'t work for future 5", Except.ok 60,
       Except.error "It didn\'t work for future 7", Except.ok 80,
       Except.error "It didn\'t work for future 9"] := rfl
  have := drain_perm (error_batch millis)
  rwa [hmap] at this

theorem values_sum_eq_450 (millis : Nat → Nat) :
    demo_waiting_for_multiple_random_sleeps_with_return_values millis = 450 := by
  unfold demo_waiting_for_multiple_random_sleeps_with_return_values
  rw [foldl_add_eq_sum]
  rw [(drain_value_batch_perm millis).sum_eq]
  rfl

theorem errors_result_eq (millis : Nat → Nat) :
    (demo_waiting_for_multiple_random_sleeps_with_errors millis).1 = 200 ∧
    ((demo_waiting_for_multiple_random_sleeps_with_errors millis).2).Perm
      ["It didn\'t work for future 1", "It didn\'t work for future 3",
       "It didn\'t work for future 5", "It didn\'t work for future 7",
       "It didn\'t work for future 9"] := by
  unfold demo_waiting_for_multiple_random_sleeps_with_errors
  rw [foldl_errorLoopStep]
  have hperm := drain_error_batch_perm millis
  constructor
  · have hs := (hperm.map okValueOrZero).sum_eq
    simp only []
    rw [hs]
    rfl
  · have hf := hperm.filterMap errMessageOf
    simpa [errMessageOf] using hf

/-- C1: Exactly-once delivery — for every batch of N pushed Operations,
draining the multiplexer by repeatedly calling `next()` yields exactly N
results before it returns absent, and no Operation's result is yielded more
than once: the drained list is a permutation of the batch's results (so each
result is delivered with exactly its pushed multiplicity). -/
theorem exactly_once_delivery {α : Type} (batch : Multiplexer α) :
    (Multiplexer.drain batch).length = batch.length ∧
    (Multiplexer.drain batch).Perm (batch.map Prod.snd) :=
  ⟨drain_length batch, drain_perm batch⟩

/-- C2: Exhaustion correctness — `next()` returns absent iff the batch is
empty with no Operation in flight; a multiplexer with zero pushed Operations
returns absent on the first call; and once the batch is empty every further
iteration of the drain loop yields nothing (idempotent terminal state). -/
theorem exhaustion_correct {α : Type} :
    (Multiplexer.next (Multiplexer.new : Multiplexer α) = none) ∧
    (∀ m : Multiplexer α, Multiplexer.next m = none ↔ m = Multiplexer.new) ∧
    (∀ m : Multiplexer α, Multiplexer.next m = none →
      ∀ fuel : Nat, Multiplexer.drainAux fuel m = []) := by
  refine ⟨rfl, ?_, ?_⟩
  · intro m
    exact next_eq_none m
  · intro m hm fuel
    cases fuel with
    | zero => rfl
    | succ fuel => simp [Multiplexer.drainAux, hm]

/-- C3: Failure isolation — in a batch of N Operations where operation k
always fails, the multiplexer still delivers all N results: the drained list
has length N and is a permutation of the batch's results, so every one of the
other N−1 Operations' correct success values is delivered through the same
`next()` channel; the failure aborts nothing. -/
theorem failure_isolation {α ε : Type} (N k : Nat) (millis : Nat → Nat)
    (v : Nat → α) (e : ε) (hk : k < N) :
    (Multiplexer.drain ((List.range N).map
      (fun i => (millis i, if i = k then Except.error e else Except.ok (v i))))).length = N ∧
    (Multiplexer.drain ((List.range N).map
      (fun i => (millis i, if i = k then Except.error e else Except.ok (v i))))).Perm
      ((List.range N).map
        (fun i => if i = k then Except.error e else Except.ok (v i))) := by
  have hmap : ((List.range N).map
      (fun i => (millis i, if i = k then Except.error e else Except.ok (v i)))).map Prod.snd =
      (List.range N).map (fun i => if i = k then Except.error e else Except.ok (v i)) := by
    rw [List.map_map]
    rfl
  constructor
  · rw [drain_length, List.length_map, List.length_range]
  · have := drain_perm ((List.range N).map
      (fun i => (millis i, if i = k then Except.error e else Except.ok (v i))))
    rwa [hmap] at this

/-- Witness for C3 at N = 3, k = 1: the batch where operation 1 fails still
delivers all three results. -/
theorem failure_isolation_witness :
    1 < 3 ∧
    ((Multiplexer.drain ((List.range 3).map
      (fun i => (i, if i = 1 then Except.error "boom" else Except.ok (i * 2))))).length = 3 ∧
    (Multiplexer.drain ((List.range 3).map
      (fun i => (i, if i = 1 then Except.error "boom" else Except.ok (i * 2))))).Perm
      ((List.range 3).map
        (fun i => if i = 1 then Except.error "boom" else Except.ok (i * 2)))) :=
  ⟨by decide, failure_isolation 3 1 (fun i => i) (fun i => i * 2) "boom" (by decide)⟩

/-- C4, counterexample: the claim says the five successes of the mixed batch
sum to 100, but the even-indexed successes are 0, 20, 40, 60, 80, whose sum is
200; at the concrete latency assignment `millis i = i` the final sum
accumulator is not 100. -/
theorem mixed_scenario_counterexample :
    ¬ (demo_waiting_for_multiple_random_sleeps_with_errors (fun i => i)).1 = 100 := by
  decide

/-- C4, amended: for every latency assignment, draining the mixed batch of 10
Operations yields exactly the 5 successes 0, 20, 40, 60, 80 (which sum to
10*(0+2+4+6+8) = 200, not 100) and exactly the 5 distinct failures tagged
1, 3, 5, 7, 9, with no result lost or duplicated. -/
theorem mixed_scenario_amended (millis : Nat → Nat) :
    (Multiplexer.drain (error_batch millis)).Perm
      [Except.ok 0, Except.error "It didn\'t work for future 1", Except.ok 20,
       Except.error "It didn\'t work for future 3", Except.ok 40,
       Except.error "It didn\'t work for future 5", Except.ok 60,
       Except.error "It didn\'t work for future 7", Except.ok 80,
       Except.error "It didn\'t work for future 9"] ∧
    (demo_waiting_for_multiple_random_sleeps_with_errors millis).1 = 200 ∧
    ((demo_waiting_for_multiple_random_sleeps_with_errors millis).2).Perm
      ["It didn\'t work for future 1", "It didn\'t work for future 3",
       "It didn\'t work for future 5", "It didn\'t work for future 7",
       "It didn\'t work for future 9"] ∧
    (["It didn\'t work for future 1", "It didn\'t work for future 3",
      "It didn\'t work for future 5", "It didn\'t work for future 7",
      "It didn\'t work for future 9"] : List String).Nodup :=
  ⟨drain_error_batch_perm millis, (errors_result_eq millis).1,
    (errors_result_eq millis).2, by decide⟩

/-- C5: Aggregation correctness — for the batch of 10 Operations where
operation i completes with value i * 10, draining and summing the yielded
values gives 450 for every latency assignment, hence regardless of the
completion order in which the results arrive. -/
theorem aggregation_sum_450 (millis : Nat → Nat) :
    demo_waiting_for_multiple_random_sleeps_with_return_values millis = 450 :=
  values_sum_eq_450 millis

/-- C6: Order independence — for two Operations with deterministic latencies
L1 < L2, the one with latency L1 is yielded first whichever of the two push
orders is used: delivery follows completion order, never submission (FIFO)
order. -/
theorem order_independence {α : Type} (L1 L2 : Nat) (a b : α) (h : L1 < L2) :
    Multiplexer.drain
      (Multiplexer.push (Multiplexer.push Multiplexer.new (L1, a)) (L2, b)) = [a, b] ∧
    Multiplexer.drain
      (Multiplexer.push (Multiplexer.push Multiplexer.new (L2, b)) (L1, a)) = [a, b] := by
  have h1 : L1 ≤ L2 := Nat.le_of_lt h
  have h2 : ¬ L2 ≤ L1 := Nat.not_le.mpr h
  constructor <;>
    simp [Multiplexer.drain, Multiplexer.drainAux, Multiplexer.next, selectEarliest,
      Multiplexer.push, Multiplexer.new, h1, h2]

/-- Witness for C6 at L1 = 1 < L2 = 2: pushing in either order yields the
result of the latency-1 Operation first. -/
theorem order_independence_witness :
    1 < 2 ∧
    (Multiplexer.drain
      (Multiplexer.push (Multiplexer.push Multiplexer.new (1, 10)) (2, 20)) = [10, 20] ∧
    Multiplexer.drain
      (Multiplexer.push (Multiplexer.push Multiplexer.new (2, 20)) (1, 10)) = [10, 20]) :=
  ⟨by decide, order_independence 1 2 10 20 (by decide)⟩

/-- C7: Fetch error taxonomy — `download_url` completes with either the
response body or a failure; every failure is one of the three kinds
(connection error, non-success status, decoding error); and it never
completes with success when the GET failed or when the body read failed. -/
theorem fetch_error_taxonomy {ρ : Type} (get_result : Except FetchError ρ)
    (body_string : ρ → Except FetchError String) :
    ((∃ body, download_url get_result body_string = Except.ok body) ∨
      (∃ e, download_url get_result body_string = Except.error e)) ∧
    (∀ e, download_url get_result body_string = Except.error e →
      (∃ c, e = FetchError.connection c) ∨ (∃ c, e = FetchError.status c) ∨
      (∃ c, e = FetchError.decode c)) ∧
    (∀ e, get_result = Except.error e →
      ∀ body, ¬ download_url get_result body_string = Except.ok body) ∧
    (∀ r e, get_result = Except.ok r → body_string r = Except.error e →
      ∀ body, ¬ download_url get_result body_string = Except.ok body) := by
  refine ⟨?_, ?_, ?_, ?_⟩
  · cases hg : get_result with
    | error e => exact Or.inr ⟨e, by simp [download_url]⟩
    | ok r =>
      cases hb : body_string r with
      | error e => exact Or.inr ⟨e, by simp [download_url, hb]⟩
      | ok body => exact Or.inl ⟨body, by simp [download_url, hb]⟩
  · intro e _
    cases e with
    | connection c => exact Or.inl ⟨c, rfl⟩
    | status c => exact Or.inr (Or.inl ⟨c, rfl⟩)
    | decode c => exact Or.inr (Or.inr ⟨c, rfl⟩)
  · intro e hg body
    subst hg
    simp [download_url]
  · intro r e hg hb body
    subst hg
    simp [download_url, hb]

/-- C9: Accumulator unchanged on error — an iteration of the errors drain
loop that receives an `Err` result leaves the sum component of the
accumulator exactly as it was, and after exhaustion the sum equals the sum of
the successful values alone. -/
theorem error_leaves_sum_unchanged :
    (∀ (acc : Nat × List String) (e : String),
      (errorLoopStep acc (Except.error e)).1 = acc.1) ∧
    (∀ l : List (Except String Nat),
      (l.foldl errorLoopStep (0, ([] : List String))).1 =
        (l.filterMap Except.toOption).sum) := by
  constructor
  · intro acc e
    rfl
  · intro l
    rw [foldl_errorLoopStep]
    simp only [Nat.zero_add]
    induction l with
    | nil => rfl
    | cons x xs ih =>
      cases x with
      | ok v => simp [okValueOrZero, Except.toOption, ih]
      | error e => simp [okValueOrZero, Except.toOption, ih]

/-- C8: Aggregate independent of latencies — two runs of the success-sum and
success/error drain loops that differ only in the latency assignment of the
10 Operations end with the same final sum accumulator. -/
theorem aggregate_latency_independent (millis1 millis2 : Nat → Nat) :
    demo_waiting_for_multiple_random_sleeps_with_return_values millis1 =
      demo_waiting_for_multiple_random_sleeps_with_return_values millis2 ∧
    (demo_waiting_for_multiple_random_sleeps_with_errors millis1).1 =
      (demo_waiting_for_multiple_random_sleeps_with_errors millis2).1 := by
  constructor
  · rw [values_sum_eq_450 millis1, values_sum_eq_450 millis2]
  · rw [(errors_result_eq millis1).1, (errors_result_eq millis2).1]

/-- C10: Fetch short-circuits on first error — when the GET itself fails the
error is returned immediately and the body read is never attempted (the
result does not depend on the body collaborator at all); when the GET
succeeds but the body read fails, that error is returned; `Ok(body)` is
produced exactly when both steps succeed. -/
theorem fetch_short_circuit {ρ : Type} (get_result : Except FetchError ρ)
    (body_string : ρ → Except FetchError String) :
    (∀ e, get_result = Except.error e →
      download_url get_result body_string = Except.error e ∧
      ∀ body_string2 : ρ → Except FetchError String,
        download_url get_result body_string2 = Except.error e) ∧
    (∀ r e, get_result = Except.ok r → body_string r = Except.error e →
      download_url get_result body_string = Except.error e) ∧
    (∀ body, download_url get_result body_string = Except.ok body ↔
      ∃ r, get_result = Except.ok r ∧ body_string r = Except.ok body) := by
  refine ⟨?_, ?_, ?_⟩
  · intro e hg
    subst hg
    exact ⟨rfl, fun body_string2 => rfl⟩
  · intro r e hg hb
    subst hg
    simp [download_url, hb]
  · intro body
    cases hg : get_result with
    | error e =>
      simp [download_url]
    | ok r =>
      cases hb : body_string r with
      | error e => simp [download_url, hb]
      | ok b => simp [download_url, hb]

end AsyncStdDemo
